import Mathlib

/-!
# Verification of the CSkia ownership-transfer shim

Shallow embedding of `Sources/CSkia/utils.cpp`, `utils.h`, `utils_macos.h`
and `utils_macos.cpp` (the Shaft repository's flat-C binding layer over the
Skia engine), together with proofs about the ownership-transfer and lifetime
contract the shim implements.

Modelling conventions:
* Engine objects live in an explicit `Heap` mapping object ids to reference
  counts (`0` = destroyed or never allocated).  Objects managed by
  `std::unique_ptr` / plain `delete` are modelled in the same heap with
  count `1` while alive.
* `sk_sp<T>` (Skia's intrusive reference-counted smart pointer) is modelled
  by `SkSp`: a nullable object id whose holder owns one reference.
* The wrapped engine (Skia itself) is not part of the repository; its
  operations are abstract fields of the `Engine` structure, constrained only
  by hypotheses where a theorem needs them.
* `SkScalar` values are only forwarded by the shim, never computed with, so
  any value carrier is faithful; we use `Int`.
-/

/-- Heap of engine objects: `rc i` is the reference count of object `i`
(for uniquely-owned objects, `1` = alive); `0` means destroyed or never
allocated.  `next` is the next fresh object id. -/
structure Heap where
  next : Nat
  rc : Nat → Nat

/-- The heap at process start: nothing allocated. -/
def emptyHeap : Heap := ⟨0, fun _ => 0⟩

/-- Is object `i` currently alive? -/
def Heap.live (h : Heap) (i : Nat) : Bool := 0 < h.rc i

/-- Allocate a fresh object with reference count 1. -/
def Heap.alloc (h : Heap) : Nat × Heap :=
  (h.next, ⟨h.next + 1, Function.update h.rc h.next 1⟩)

/-- Increment the reference count of object `i` (`SkRef` / `CFRetain`). -/
def Heap.retain (h : Heap) (i : Nat) : Heap :=
  ⟨h.next, Function.update h.rc i (h.rc i + 1)⟩

/-- Decrement the reference count of object `i`; the object is destroyed
when the count reaches 0 (`SkUnref` / `CFRelease`). -/
def Heap.releaseRef (h : Heap) (i : Nat) : Heap :=
  ⟨h.next, Function.update h.rc i (h.rc i - 1)⟩

/-- Model of `sk_sp<T>`: a nullable pointer whose non-null holder owns one
reference of the pointee, released by the destructor. -/
structure SkSp where
  ptr : Option Nat
deriving Repr, DecidableEq

/-- `sk_make_sp<T>()`: allocate a fresh reference-counted object and wrap it. -/
def sk_make_sp (h : Heap) : SkSp × Heap :=
  let (i, h1) := h.alloc
  (⟨some i⟩, h1)

/-- The `sk_sp` destructor: releases the held reference when non-null. -/
def SkSp.destroy (s : SkSp) (h : Heap) : Heap :=
  match s.ptr with
  | none => h
  | some i => h.releaseRef i

/-- Model of an engine-side smart pointer returned by a factory
(`std::unique_ptr<T>` for the paragraph-builder factories). -/
structure EnginePtr where
  ptr : Option Nat
deriving Repr, DecidableEq

/-- `p.release()`: hand out the raw pointer and empty the wrapper, so the
caller of `release` becomes the sole owner. -/
def EnginePtr.release (p : EnginePtr) : Option Nat × EnginePtr :=
  (p.ptr, ⟨none⟩)

/-- Opaque model of `ParagraphStyle` values (the shim only forwards them). -/
abbrev ParagraphStyle := Nat

/-- Opaque model of `SkAndroidCodec` objects produced by
`SkAndroidCodec::MakeFromData`. -/
abbrev Codec := Nat

/-- The wrapped engine's operations used by the factory shims.  Skia itself
is outside this repository, so these are abstract behaviors; theorems
constrain them by explicit hypotheses where needed. -/
structure Engine where
  /-- `SkFontMgr_New_CoreText` / `_DirectWrite` / `_FontConfig` (platform
  font-manager constructor, run at static-initialization time). -/
  newFontMgr : Heap → SkSp × Heap
  /-- `ParagraphBuilder::make(style, fontCollection)`. -/
  pbMake : ParagraphStyle → SkSp → Heap → EnginePtr × Heap
  /-- `builder->Build()` on a `ParagraphBuilder*`. -/
  pbBuild : Nat → Heap → EnginePtr × Heap
  /-- `SkAndroidCodec::MakeFromData(bytes)`: `none` when the bytes cannot
  be decoded.  `SkData` is an immutable byte container, modelled as the
  byte list itself. -/
  makeCodecFromData : List Nat → Option Codec
  /-- `SkAnimatedImage::Make(codec)`: may return a null `sk_sp`. -/
  makeAnimatedImage : Codec → Heap → SkSp × Heap
  /-- `GrGLMakeNativeInterface()`. -/
  glMakeNativeInterface : Heap → SkSp × Heap

/-- Process-wide state of the shim: the heap plus the two globals of
`utils.cpp` (`fontMgr`, `fontCollection1`) and, for each `FontCollection`
object, the default font manager currently set on it. -/
structure World where
  heap : Heap
  /-- global `auto fontMgr = SkFontMgr_New_...(nullptr);` -/
  fontMgr : SkSp
  /-- global `auto fontCollection1 = sk_make_sp<FontCollection>();` -/
  fontCollection1 : SkSp
  /-- configuration attribute written by
  `collection->setDefaultFontManager(mgr)`, per collection object id. -/
  fcDefaultMgr : Nat → Option Nat

/-- Static initialization of `utils.cpp`: construct the platform font
manager, then the singleton font collection. -/
def staticInit (E : Engine) : World :=
  let (mgr, h1) := E.newFontMgr emptyHeap
  let (fc, h2) := sk_make_sp h1
  { heap := h2, fontMgr := mgr, fontCollection1 := fc, fcDefaultMgr := fun _ => none }

/-- `collection->setDefaultFontManager(mgr)`: store `mgr` as the
collection's default font manager (configuration attribute of the
collection object; no ownership change is modelled). -/
def setDefaultFontManager (w : World) (collection : Option Nat) (mgr : Option Nat) : World :=
  match collection with
  | none => w
  | some c => { w with fcDefaultMgr := Function.update w.fcDefaultMgr c mgr }

/-- `ParagraphBuilder *paragraph_builder_new(ParagraphStyle &style)`:
```cpp
fontCollection1->setDefaultFontManager(fontMgr);
auto result = ParagraphBuilder::make(style, fontCollection1);
auto result2 = result.release();
return result2;
``` -/
def paragraph_builder_new (E : Engine) (style : ParagraphStyle) (w : World) :
    Option Nat × World :=
  let w1 := setDefaultFontManager w w.fontCollection1.ptr w.fontMgr.ptr
  let (result, h1) := E.pbMake style w1.fontCollection1 w1.heap
  let (result2, _) := result.release
  (result2, { w1 with heap := h1 })

/-- `Paragraph *paragraph_builder_build(ParagraphBuilder *builder)`:
`return builder->Build().release();` -/
def paragraph_builder_build (E : Engine) (builder : Nat) (h : Heap) :
    Option Nat × Heap :=
  let (result, h1) := E.pbBuild builder h
  ((result.release).1, h1)

/-- `FontCollection_sp sk_fontcollection_new()`:
```cpp
auto collection = sk_make_sp<FontCollection>();
collection->setDefaultFontManager(fontMgr);
return collection;
```
The return type `FontCollection_sp` is `sk_sp<FontCollection>`. -/
def sk_fontcollection_new (w : World) : SkSp × World :=
  let (collection, h1) := sk_make_sp w.heap
  let w1 := setDefaultFontManager { w with heap := h1 } collection.ptr w.fontMgr.ptr
  (collection, w1)

/-- `SkAnimatedImage_sp sk_animated_image_create(const void *data, size_t length)`:
```cpp
auto bytes = SkData::MakeWithCopy(data, length);
auto aCodec = SkAndroidCodec::MakeFromData(std::move(bytes));
if (aCodec == nullptr) { return nullptr; }
return SkAnimatedImage::Make(std::move(aCodec));
``` -/
def sk_animated_image_create (E : Engine) (data : List Nat) (h : Heap) :
    SkSp × Heap :=
  let bytes := data
  match E.makeCodecFromData bytes with
  | none => (⟨none⟩, h)
  | some aCodec => E.makeAnimatedImage aCodec h

/-- `GrGLInterface_sp gr_glinterface_create_native_interface()`:
`return GrGLMakeNativeInterface();` -/
def gr_glinterface_create_native_interface (E : Engine) (h : Heap) : SkSp × Heap :=
  E.glMakeNativeInterface h

/-- The shape in which a factory result crosses the C boundary, read off
from the declared return type: a raw pointer whose smart-pointer wrapper
was `release()`d at the boundary, or an `sk_sp` returned by value with its
reference-count bookkeeping still active. -/
inductive BoundaryResult where
  | raw (p : Option Nat)
  | sp (s : SkSp)
deriving Repr, DecidableEq

/-- Does this boundary result hand the caller a raw owned pointer with the
smart-pointer bookkeeping stripped? -/
def BoundaryResult.isOwnedRaw : BoundaryResult → Bool
  | .raw _ => true
  | .sp _ => false

/-- Is the boundary result a null handle? -/
def BoundaryResult.isNull : BoundaryResult → Bool
  | .raw p => p = none
  | .sp s => s.ptr = none

/-- The factory operations exported by the shim, with their arguments. -/
inductive FactoryOp where
  | paragraph_builder_new (style : ParagraphStyle)
  | paragraph_builder_build (builder : Nat)
  | sk_fontcollection_new
  | sk_animated_image_create (data : List Nat)
  | gr_glinterface_create_native_interface

/-- Run one factory operation, tagging the result with the shape in which
it crosses the boundary (raw pointer vs `sk_sp` by value), exactly as the
declared C return types of `utils.h` do. -/
def runFactory (E : Engine) (w : World) : FactoryOp → BoundaryResult × World
  | .paragraph_builder_new style =>
      let (p, w1) := paragraph_builder_new E style w
      (.raw p, w1)
  | .paragraph_builder_build b =>
      let (p, h1) := paragraph_builder_build E b w.heap
      (.raw p, { w with heap := h1 })
  | .sk_fontcollection_new =>
      let (s, w1) := sk_fontcollection_new w
      (.sp s, w1)
  | .sk_animated_image_create data =>
      let (s, h1) := sk_animated_image_create E data w.heap
      (.sp s, { w with heap := h1 })
  | .gr_glinterface_create_native_interface =>
      let (s, h1) := gr_glinterface_create_native_interface E w.heap
      (.sp s, { w with heap := h1 })

/-- A concrete engine instance used to evaluate the model on closed inputs:
codec creation fails exactly on empty byte buffers, factories allocate
fresh objects. -/
def testEngine : Engine where
  newFontMgr := fun h => sk_make_sp h
  pbMake := fun _ _ h => let (i, h1) := h.alloc; (⟨some i⟩, h1)
  pbBuild := fun _ h => let (i, h1) := h.alloc; (⟨some i⟩, h1)
  makeCodecFromData := fun data => if data = [] then none else some data.length
  makeAnimatedImage := fun _ h => let (i, h1) := h.alloc; (⟨some i⟩, h1)
  glMakeNativeInterface := fun h => sk_make_sp h

/-- The world after static initialization under `testEngine`. -/
def testWorld : World := staticInit testEngine

/-- Outcome of a C++ `delete` on a raw pointer. -/
inductive DeleteResult where
  | ok (h : Heap)
  | doubleFree

/-- `delete p` as performed by `std::default_delete<T>()(p)`: a no-op on a
null pointer, destroys a live object, and is a double release when the
object was already destroyed. -/
def Heap.deletePtr (h : Heap) (p : Option Nat) : DeleteResult :=
  match p with
  | none => .ok h
  | some i => if h.live i then .ok ⟨h.next, Function.update h.rc i 0⟩ else .doubleFree

/-- `void paragraph_builder_unref(ParagraphBuilder *builder)`:
`std::default_delete<ParagraphBuilder>()(builder);` -/
def paragraph_builder_unref (h : Heap) (builder : Option Nat) : DeleteResult :=
  h.deletePtr builder

/-- `void paragraph_unref(Paragraph *paragraph)`:
`std::default_delete<Paragraph>()(paragraph);` -/
def paragraph_unref (h : Heap) (paragraph : Option Nat) : DeleteResult :=
  h.deletePtr paragraph

/-- Repeatedly call `paragraph_builder_new`, once per style in the list,
collecting the returned raw handles. -/
def runBuilders (E : Engine) (styles : List ParagraphStyle) (w : World) :
    List (Option Nat) × World :=
  match styles with
  | [] => ([], w)
  | s :: rest =>
      let (p, w1) := paragraph_builder_new E s w
      let (ps, w2) := runBuilders E rest w1
      (p :: ps, w2)

/-- Model of `SkScalar` values: the shim only forwards scalars, never
computes with them, so any value carrier is faithful. -/
abbrev Scalar := Int

/-- Model of `skia::textlayout::PositionWithAffinity` (a plain value:
text position plus affinity flag). -/
structure PositionWithAffinity where
  position : Int
  affinity : Nat
deriving Repr, DecidableEq

/-- Model of `SkRange<size_t>` (a plain value: start/end offsets). -/
structure TextRange where
  start : Nat
  stop : Nat
deriving Repr, DecidableEq

/-- Opaque model of the internal state of one `Paragraph` object (layout
results, shaped text, ...). -/
abbrev PState := Nat

/-- Opaque model of an `SkCanvas` drawing state. -/
abbrev Canvas := Nat

/-- The engine-side behavior of `Paragraph` objects: each method of
`skia::textlayout::Paragraph` used by the shim, as a function of the
object's internal state.  Query methods return plain values; `layout`
transforms the paragraph state; `paint` transforms the canvas. -/
structure ParagraphEngine where
  getGlyphPositionAtCoordinate : PState → Scalar → Scalar → PositionWithAffinity
  getLineNumberAt : PState → Nat → Int
  lineNumber : PState → Nat
  getWordBoundary : PState → Nat → TextRange
  layout : PState → Scalar → PState
  paint : PState → Canvas → Scalar → Scalar → Canvas

/-- `PositionWithAffinity paragraph_get_glyph_position_at_coordinate(Paragraph *, SkScalar dx, SkScalar dy)`:
```cpp
PositionWithAffinity position = paragraph->getGlyphPositionAtCoordinate(dx, dy);
return position;
``` -/
def paragraph_get_glyph_position_at_coordinate (PE : ParagraphEngine) (st : PState)
    (dx dy : Scalar) : PositionWithAffinity :=
  let position := PE.getGlyphPositionAtCoordinate st dx dy
  position

/-- `int paragraph_get_line_number_at(Paragraph *, size_t codeUnitIndex)`:
`return paragraph->getLineNumberAt(codeUnitIndex);` -/
def paragraph_get_line_number_at (PE : ParagraphEngine) (st : PState)
    (codeUnitIndex : Nat) : Int :=
  PE.getLineNumberAt st codeUnitIndex

/-- `size_t paragraph_get_line_count(Paragraph *)`:
`return paragraph->lineNumber();` -/
def paragraph_get_line_count (PE : ParagraphEngine) (st : PState) : Nat :=
  PE.lineNumber st

/-- `SkRange<size_t> paragraph_get_word_boundary(Paragraph *, unsigned offset)`:
`return paragraph->getWordBoundary(offset);` -/
def paragraph_get_word_boundary (PE : ParagraphEngine) (st : PState)
    (offset : Nat) : TextRange :=
  PE.getWordBoundary st offset

/-- `void paragraph_layout(Paragraph *, float width)`:
`paragraph->layout(width);` — mutates the paragraph's layout state. -/
def paragraph_layout (PE : ParagraphEngine) (st : PState) (width : Scalar) : PState :=
  PE.layout st width

/-- `void paragraph_paint(Paragraph *, SkCanvas *canvas, float x, float y)`:
`paragraph->paint(canvas, x, y);` — draws onto the canvas. -/
def paragraph_paint (PE : ParagraphEngine) (st : PState) (canvas : Canvas)
    (x y : Scalar) : Canvas :=
  PE.paint st canvas x y

/-- The borrow-only shim calls on a `Paragraph` handle: each passes the
handle as a borrowed reference and performs no ownership operation
(no retain, release or delete appears in any of these bodies). -/
inductive BorrowCall where
  | getGlyphPositionAtCoordinate (dx dy : Scalar)
  | getLineNumberAt (codeUnitIndex : Nat)
  | getLineCount
  | getWordBoundary (offset : Nat)
  | paint (canvas : Canvas) (x y : Scalar)

/-- Run one borrow-only shim call on a paragraph handle: the heap (the
ownership state) and the paragraph state pass through exactly as in the
shim bodies, which contain no ownership operation. -/
def applyBorrow (PE : ParagraphEngine) (h : Heap) (st : PState) :
    BorrowCall → Heap × PState
  | .getGlyphPositionAtCoordinate dx dy =>
      let _ := paragraph_get_glyph_position_at_coordinate PE st dx dy
      (h, st)
  | .getLineNumberAt i =>
      let _ := paragraph_get_line_number_at PE st i
      (h, st)
  | .getLineCount =>
      let _ := paragraph_get_line_count PE st
      (h, st)
  | .getWordBoundary o =>
      let _ := paragraph_get_word_boundary PE st o
      (h, st)
  | .paint c x y =>
      let _ := paragraph_paint PE st c x y
      (h, st)

/-- Run a sequence of borrow-only shim calls. -/
def runBorrows (PE : ParagraphEngine) (h : Heap) (st : PState) :
    List BorrowCall → Heap × PState
  | [] => (h, st)
  | c :: rest =>
      let (h1, st1) := applyBorrow PE h st c
      runBorrows PE h1 st1 rest

/-- Model of `SkGlyphID` values. -/
abbrev GlyphID := Nat

/-- Model of `SkPoint` (a plain coordinate pair). -/
structure SkPoint where
  x : Scalar
  y : Scalar
deriving Repr, DecidableEq

/-- Opaque model of `SkFont` values (the text-blob shim only forwards the
font into the run). -/
abbrev Font := Nat

/-- The contents of the text run written into the `SkTextBlobBuilder`
buffer: the font plus the copied glyph and position arrays. -/
structure TextBlobData where
  font : Font
  glyphs : List GlyphID
  points : List SkPoint
deriving Repr, DecidableEq

/-- `SkTextBlob_sp sk_text_blob_make_from_glyphs(const SkGlyphID *glyphs, const SkPoint *positions, size_t length, const SkFont &font)`:
```cpp
SkTextBlobBuilder builder;
auto buffer = builder.allocRunPos(font, length);
memcpy(buffer.glyphs, glyphs, length * sizeof(SkGlyphID));
memcpy(buffer.points(), positions, length * sizeof(SkPoint));
return builder.make();
```
The two `memcpy` calls copy exactly `length` elements out of the caller's
arrays; `builder.make()` allocates a fresh reference-counted `SkTextBlob`
returned as an `sk_sp` (return type `SkTextBlob_sp = sk_sp<SkTextBlob>`). -/
def sk_text_blob_make_from_glyphs (glyphs : List GlyphID) (positions : List SkPoint)
    (length : Nat) (font : Font) (h : Heap) : SkSp × TextBlobData × Heap :=
  let buffer : TextBlobData :=
    { font := font, glyphs := glyphs.take length, points := positions.take length }
  let (i, h1) := h.alloc
  (⟨some i⟩, buffer, h1)

/-- The engine-side behavior of one `SkTypeface` object. -/
structure Typeface where
  unicharToGlyph : Nat → GlyphID

/-- `std::vector<SkGlyphID> sk_typeface_get_glyphs(SkTypeface_sp &typeface, const SkUnichar *text, size_t length)`:
```cpp
std::vector<SkGlyphID> glyphs;
glyphs.resize(length);
typeface->unicharsToGlyphs(text, length, glyphs.data());
return glyphs;
```
`unicharsToGlyphs` maps each of the first `length` unichars of `text` to
its glyph id; the result is a self-contained `std::vector` value. -/
def sk_typeface_get_glyphs (tf : Typeface) (text : List Nat) (length : Nat) :
    List GlyphID :=
  (text.take length).map tf.unicharToGlyph

-- MARK: CFRef (utils_macos.h)

/-- Number of occurrences of `a` in `l` (used for reference-count event
bookkeeping). -/
def cnt {α : Type} [DecidableEq α] : List α → α → Nat
  | [], _ => 0
  | b :: t, a => (if b = a then 1 else 0) + cnt t a

/-- Tracked state of all `CFRef<T>` wrappers plus the CoreFoundation
reference-count events they have issued.  `cells j` is the instance held
by wrapper `j` (`none` = nullptr); `acquired` records one entry per owned
reference entering the system (a `Create`-rule reference adopted by a
constructor or `Reset`, or a `CFRetain` by the copy constructor);
`released` records one entry per `CFRelease`; `escaped` records references
handed out of the system by `Release()`. -/
structure CFWorld where
  cells : List (Option Nat)
  acquired : List Nat
  released : List Nat
  escaped : List Nat
deriving Repr, DecidableEq

/-- The operations of `CFRef<T>` in `utils_macos.h`, acting on wrapper
indices (a fresh wrapper is appended by the constructors). -/
inductive CFOp where
  /-- `CFRef() : instance_(nullptr)` -/
  | mkEmpty
  /-- `CFRef(T instance) : instance_(instance)` — adopts an owned
  reference freshly produced by a CoreFoundation `Create` call. -/
  | adopt (i : Nat)
  /-- `CFRef(const CFRef &other)` — copies and `CFRetain`s when non-null. -/
  | copyFrom (j : Nat)
  /-- `CFRef(CFRef &&other)` — takes the instance, nulls the source. -/
  | moveFrom (j : Nat)
  /-- `operator=(CFRef &&other)` — `Reset(other.Release())`. -/
  | moveAssign (dst src : Nat)
  /-- `Reset(T instance = nullptr)` — releases the old instance when
  non-null, stores the new owned reference (or null). -/
  | reset (j : Nat) (v : Option Nat)
  /-- `Release()` — hands the owned reference out of the wrapper system
  and nulls the wrapper. -/
  | releaseCall (j : Nat)
  /-- `~CFRef()` — `CFRelease` only when non-null, then null. -/
  | destructor (j : Nat)

/-- Small-step semantics of one `CFRef` operation, following the member
bodies of `utils_macos.h` line by line.  Operations addressing a wrapper
index that was never created are no-ops (in C++ they are not expressible). -/
def CFWorld.applyOp (w : CFWorld) : CFOp → CFWorld
  | .mkEmpty => { w with cells := w.cells ++ [none] }
  | .adopt i => { w with cells := w.cells ++ [some i], acquired := w.acquired ++ [i] }
  | .copyFrom j =>
      if j < w.cells.length then
        match w.cells.getD j none with
        | none => { w with cells := w.cells ++ [none] }
        | some i =>
            { w with cells := w.cells ++ [some i], acquired := w.acquired ++ [i] }
      else w
  | .moveFrom j =>
      if j < w.cells.length then
        { w with cells := (w.cells.set j none) ++ [w.cells.getD j none] }
      else w
  | .moveAssign dst src =>
      if dst < w.cells.length ∧ src < w.cells.length then
        match (w.cells.set src none).getD dst none with
        | none =>
            { w with cells := (w.cells.set src none).set dst (w.cells.getD src none) }
        | some k =>
            { w with cells := (w.cells.set src none).set dst (w.cells.getD src none),
                     released := w.released ++ [k] }
      else w
  | .reset j v =>
      if j < w.cells.length then
        match w.cells.getD j none, v with
        | none, none => { w with cells := w.cells.set j none }
        | none, some m =>
            { w with cells := w.cells.set j (some m), acquired := w.acquired ++ [m] }
        | some k, none =>
            { w with cells := w.cells.set j none, released := w.released ++ [k] }
        | some k, some m =>
            { w with cells := w.cells.set j (some m), acquired := w.acquired ++ [m],
                     released := w.released ++ [k] }
      else w
  | .releaseCall j =>
      if j < w.cells.length then
        match w.cells.getD j none with
        | none => { w with cells := w.cells.set j none }
        | some k =>
            { w with cells := w.cells.set j none, escaped := w.escaped ++ [k] }
      else w
  | .destructor j =>
      if j < w.cells.length then
        match w.cells.getD j none with
        | none => w
        | some k =>
            { w with cells := w.cells.set j none, released := w.released ++ [k] }
      else w

/-- Run a sequence of `CFRef` operations from a starting state. -/
def CFWorld.run (w : CFWorld) : List CFOp → CFWorld
  | [] => w
  | op :: rest => (w.applyOp op).run rest

/-- The initial `CFRef` world: no wrappers, no events. -/
def CFWorld.init : CFWorld := ⟨[], [], [], []⟩

/-- Bookkeeping balance for CF instance `i`: every acquired reference is
accounted for by a past `CFRelease`, a wrapper currently holding it, or a
reference handed out by `Release()`. -/
def CFWorld.balanced (w : CFWorld) (i : Nat) : Prop :=
  cnt w.acquired i = cnt w.released i + cnt w.cells (some i) + cnt w.escaped i

-- MARK: RegisterSystemFonts (utils_macos.cpp)

/-- `static const std::string kSFProDisplayName = "CupertinoSystemDisplay";` -/
def kSFProDisplayName : String := "CupertinoSystemDisplay"

/-- One registration step of `RegisterSystemFonts`:
```cpp
auto register_weighted_font = [&dynamic_font_manager](const int weight) {
  sk_sp<SkTypeface> large_system_font_weighted = SkMakeTypefaceFromCTFont(
      MatchSystemUIFont(weight, kSFProDisplayBreakPoint));
  if (large_system_font_weighted) {
    dynamic_font_manager.registerTypeface(large_system_font_weighted,
                                          SkString(kSFProDisplayName));
  }
};
```
`mkTypeface` abstracts `SkMakeTypefaceFromCTFont ∘ MatchSystemUIFont`
(CoreText/engine behavior; `none` models a null `sk_sp`); the result is
the list of `registerTypeface` calls performed. -/
def register_weighted_font (mkTypeface : Nat → Option Nat) (weight : Nat) :
    List (Nat × String) :=
  match mkTypeface weight with
  | some tf => [(tf, kSFProDisplayName)]
  | none => []

/-- `void RegisterSystemFonts(TypefaceFontProvider &dynamic_font_manager)`:
```cpp
for (int i = 0; i < 8; i++) {
  const int font_weight = i * 100;
  register_weighted_font(font_weight);
}
register_weighted_font(780);
register_weighted_font(810);
```
modelled as the ordered trace of `registerTypeface` calls. -/
def RegisterSystemFonts (mkTypeface : Nat → Option Nat) : List (Nat × String) :=
  (((List.range 8).map (fun i => i * 100)) ++ [780, 810]).flatMap
    (register_weighted_font mkTypeface)

/-- A concrete `Paragraph` behavior used to evaluate the model on closed
inputs; its coordinate-to-position query always reports the engine's
out-of-range sentinel `-1`. -/
def testParagraphEngine : ParagraphEngine where
  getGlyphPositionAtCoordinate := fun st dx dy => ⟨dx + dy + st, st⟩
  getLineNumberAt := fun _ _ => -1
  lineNumber := fun st => st
  getWordBoundary := fun st o => ⟨o, o + st⟩
  layout := fun st w => st + w.natAbs
  paint := fun st c x y => c + st + x.natAbs + y.natAbs

/-- A concrete `SkTypeface` behavior for closed evaluation. -/
def testTypeface : Typeface := ⟨fun u => u + 1⟩

/-- A concrete `SkMakeTypefaceFromCTFont ∘ MatchSystemUIFont` behavior for
closed evaluation: only the regular weight yields a typeface. -/
def testMkTypeface : Nat → Option Nat := fun w => if w = 400 then some 1 else none


-- MARK: Helper lemmas

theorem setDefaultFontManager_heap (w : World) (c m : Option Nat) :
    (setDefaultFontManager w c m).heap = w.heap := by
  cases c <;> rfl

theorem setDefaultFontManager_fontCollection1 (w : World) (c m : Option Nat) :
    (setDefaultFontManager w c m).fontCollection1 = w.fontCollection1 := by
  cases c <;> rfl

theorem setDefaultFontManager_fontMgr (w : World) (c m : Option Nat) :
    (setDefaultFontManager w c m).fontMgr = w.fontMgr := by
  cases c <;> rfl

/-- `paragraph_builder_new` forwards the raw pointer obtained by releasing
the engine's smart pointer, and only the heap and the configuration
attribute of the singleton change. -/
theorem paragraph_builder_new_eq (E : Engine) (style : ParagraphStyle) (w : World) :
    paragraph_builder_new E style w =
      ((E.pbMake style w.fontCollection1 w.heap).1.ptr,
        { setDefaultFontManager w w.fontCollection1.ptr w.fontMgr.ptr with
            heap := (E.pbMake style w.fontCollection1 w.heap).2 }) := by
  simp only [paragraph_builder_new, EnginePtr.release, setDefaultFontManager_heap,
    setDefaultFontManager_fontCollection1]

-- MARK: C1

/-- C1 (counterexample): `sk_fontcollection_new` yields a non-null result
that is *not* converted into an owned raw handle at the boundary: it is
returned as a reference-counted `sk_sp`, so the claim that every exported
factory strips the reference count fails on this factory. -/
theorem C1_counterexample :
    ((runFactory testEngine testWorld .sk_fontcollection_new).1.isNull = false) ∧
      ((runFactory testEngine testWorld .sk_fontcollection_new).1.isOwnedRaw = false) := by
  constructor <;> rfl

/-- C1 (amended): only the paragraph-builder factories
(`paragraph_builder_new`, `paragraph_builder_build`) convert the engine's
smart pointer into an owned raw handle at the boundary, by `release()`-ing
the wrapper (which empties it, making the caller the sole owner); the
factories `sk_fontcollection_new`, `sk_animated_image_create` and
`gr_glinterface_create_native_interface` instead return the
reference-counted shared handle (`sk_sp`) itself by value, with its
reference-count bookkeeping still active. -/
theorem C1_factory_boundary (E : Engine) (w : World) (style : ParagraphStyle)
    (builder : Nat) (data : List Nat) :
    ((runFactory E w (.paragraph_builder_new style)).1.isOwnedRaw = true) ∧
    ((runFactory E w (.paragraph_builder_build builder)).1.isOwnedRaw = true) ∧
    ((runFactory E w .sk_fontcollection_new).1.isOwnedRaw = false) ∧
    ((runFactory E w (.sk_animated_image_create data)).1.isOwnedRaw = false) ∧
    ((runFactory E w .gr_glinterface_create_native_interface).1.isOwnedRaw = false) ∧
    (∀ p : EnginePtr, (p.release).2 = ⟨none⟩) :=
  ⟨rfl, rfl, rfl, rfl, rfl, fun _ => rfl⟩

-- MARK: C2

/-- C2: a null engine result propagates to the caller unchanged:
`sk_animated_image_create` returns null exactly when codec creation from
the given bytes fails or the engine's animated-image constructor returns
null (and on codec failure nothing at all is created); and
`paragraph_builder_new` returns exactly the (possibly null) pointer held
by the engine's factory result. -/
theorem C2_null_propagation (E : Engine) (data : List Nat) (h : Heap) :
    ((sk_animated_image_create E data h).1.ptr = none ↔
        E.makeCodecFromData data = none ∨
          ∃ c, E.makeCodecFromData data = some c ∧
            (E.makeAnimatedImage c h).1.ptr = none) ∧
    (E.makeCodecFromData data = none →
        sk_animated_image_create E data h = (⟨none⟩, h)) ∧
    (∀ style w, (paragraph_builder_new E style w).1 =
        (E.pbMake style w.fontCollection1 w.heap).1.ptr) := by
  refine ⟨?_, ?_, ?_⟩
  · cases hc : E.makeCodecFromData data with
    | none => simp [sk_animated_image_create, hc]
    | some c => simp [sk_animated_image_create, hc]
  · intro hc
    simp [sk_animated_image_create, hc]
  · intro style w
    rw [paragraph_builder_new_eq]

/-- C2 witness: on an empty byte buffer the test engine's codec creation
fails and the shim returns a null handle, creating nothing. -/
theorem C2_witness :
    sk_animated_image_create testEngine [] emptyHeap = (⟨none⟩, emptyHeap) :=
  (C2_null_propagation testEngine [] emptyHeap).2.1 rfl

-- MARK: C3

/-- C3: `paragraph_builder_unref` / `paragraph_unref` are the paired
explicit-release operations: on a live handle they deallocate it (exactly
once — afterwards the object is no longer live), releasing the same handle
again is a double release, a handle never released stays allocated
(leaked), and a freshly factory-allocated object starts out live. -/
theorem C3_unref_lifecycle (h : Heap) (i : Nat) (hl : h.live i = true) :
    (paragraph_builder_unref h (some i) = .ok ⟨h.next, Function.update h.rc i 0⟩) ∧
    (Heap.live ⟨h.next, Function.update h.rc i 0⟩ i = false) ∧
    (paragraph_builder_unref ⟨h.next, Function.update h.rc i 0⟩ (some i) = .doubleFree) ∧
    (paragraph_unref h (some i) = .ok ⟨h.next, Function.update h.rc i 0⟩) ∧
    (paragraph_unref ⟨h.next, Function.update h.rc i 0⟩ (some i) = .doubleFree) ∧
    (∀ hp : Heap, Heap.live (hp.alloc).2 (hp.alloc).1 = true) := by
  have hdead : Heap.live ⟨h.next, Function.update h.rc i 0⟩ i = false := by
    simp [Heap.live]
  refine ⟨?_, hdead, ?_, ?_, ?_, ?_⟩
  · simp [paragraph_builder_unref, Heap.deletePtr, hl]
  · simp [paragraph_builder_unref, Heap.deletePtr, hdead]
  · simp [paragraph_unref, Heap.deletePtr, hl]
  · simp [paragraph_unref, Heap.deletePtr, hdead]
  · intro hp
    simp [Heap.alloc, Heap.live]

/-- C3 witness: deleting the handle of a freshly allocated object
deallocates it. -/
theorem C3_witness :
    paragraph_builder_unref (Heap.alloc emptyHeap).2 (some 0) =
      .ok ⟨(Heap.alloc emptyHeap).2.next,
           Function.update (Heap.alloc emptyHeap).2.rc 0 0⟩ :=
  (C3_unref_lifecycle (Heap.alloc emptyHeap).2 0 (by decide)).1

-- MARK: C4

/-- C4: the query shims are extensionally equal to the engine operation
they wrap: `paragraph_get_glyph_position_at_coordinate`,
`paragraph_get_line_number_at`, `paragraph_get_line_count` and
`paragraph_get_word_boundary` return exactly the engine's value,
unmodified — in particular the engine's out-of-range sentinel `-1` of
`getLineNumberAt` passes through verbatim — and, being total functions
into plain value types, they raise no error of their own. -/
theorem C4_passthrough (PE : ParagraphEngine) (st : PState) (dx dy : Scalar) (idx : Nat) :
    (paragraph_get_glyph_position_at_coordinate PE st dx dy =
        PE.getGlyphPositionAtCoordinate st dx dy) ∧
    (paragraph_get_line_number_at PE st idx = PE.getLineNumberAt st idx) ∧
    (PE.getLineNumberAt st idx = -1 → paragraph_get_line_number_at PE st idx = -1) ∧
    (paragraph_get_line_count PE st = PE.lineNumber st) ∧
    (paragraph_get_word_boundary PE st idx = PE.getWordBoundary st idx) :=
  ⟨rfl, rfl, fun hs => hs, rfl, rfl⟩

/-- C4 witness: the sentinel `-1` reported by the engine surfaces verbatim
through `paragraph_get_line_number_at`. -/
theorem C4_witness : paragraph_get_line_number_at testParagraphEngine 0 5 = -1 :=
  (C4_passthrough testParagraphEngine 0 0 0 5).2.2.1 rfl

-- MARK: C5

/-- C5: when the input bytes cannot be decoded (codec creation fails),
`sk_animated_image_create` returns a null handle and the heap is returned
exactly as it was — no resource allocation is performed. -/
theorem C5_invalid_input (E : Engine) (data : List Nat) (h : Heap)
    (hc : E.makeCodecFromData data = none) :
    ((sk_animated_image_create E data h).1 = ⟨none⟩) ∧
    ((sk_animated_image_create E data h).2 = h) := by
  simp [sk_animated_image_create, hc]

/-- C5 witness: an empty byte buffer yields a null handle and an unchanged
heap. -/
theorem C5_witness : (sk_animated_image_create testEngine [] emptyHeap).2 = emptyHeap :=
  (C5_invalid_input testEngine [] emptyHeap rfl).2

-- MARK: C6

/-- Per-call effect of `paragraph_builder_new` on the globals: the
singleton `fontCollection1` and `fontMgr` are read, never replaced. -/
theorem paragraph_builder_new_globals (E : Engine) (style : ParagraphStyle) (w : World) :
    ((paragraph_builder_new E style w).2.fontCollection1 = w.fontCollection1) ∧
    ((paragraph_builder_new E style w).2.fontMgr = w.fontMgr) ∧
    ((paragraph_builder_new E style w).2.heap =
      (E.pbMake style w.fontCollection1 w.heap).2) := by
  rw [paragraph_builder_new_eq]
  exact ⟨setDefaultFontManager_fontCollection1 w _ _,
    setDefaultFontManager_fontMgr w _ _, rfl⟩

/-- Any sequence of `paragraph_builder_new` calls leaves the two globals
untouched, and preserves liveness of existing objects whenever the
engine's factory does. -/
theorem runBuilders_globals (E : Engine) (styles : List ParagraphStyle) (w : World) :
    ((runBuilders E styles w).2.fontCollection1 = w.fontCollection1) ∧
    ((runBuilders E styles w).2.fontMgr = w.fontMgr) ∧
    ((∀ s fc hp i, Heap.live hp i = true → Heap.live (E.pbMake s fc hp).2 i = true) →
      ∀ i, Heap.live w.heap i = true →
        Heap.live (runBuilders E styles w).2.heap i = true) := by
  induction styles generalizing w with
  | nil => exact ⟨rfl, rfl, fun _ i hi => hi⟩
  | cons s rest ih =>
      have hw1 := paragraph_builder_new_globals E s w
      have ihw := ih (paragraph_builder_new E s w).2
      have hrun : (runBuilders E (s :: rest) w).2 =
          (runBuilders E rest (paragraph_builder_new E s w).2).2 := rfl
      refine ⟨?_, ?_, ?_⟩
      · rw [hrun, ihw.1, hw1.1]
      · rw [hrun, ihw.2.1, hw1.2.1]
      · intro hE i hi
        rw [hrun]
        refine ihw.2.2 hE i ?_
        rw [hw1.2.2]
        exact hE s w.fontCollection1 w.heap i hi

/-- C6: the process-wide singletons (`fontMgr`, `fontCollection1`) are
initialized once at static initialization (`fontCollection1` is non-null
and live) and never replaced or torn down by any number of
`paragraph_builder_new` calls: every call reads the very same
`fontCollection1` and `fontMgr` objects, and (whenever the engine's
factory destroys nothing) the singleton stays live forever. -/
theorem C6_singleton (E : Engine) (styles : List ParagraphStyle) :
    ((runBuilders E styles (staticInit E)).2.fontCollection1 =
        (staticInit E).fontCollection1) ∧
    ((runBuilders E styles (staticInit E)).2.fontMgr = (staticInit E).fontMgr) ∧
    ((staticInit E).fontCollection1.ptr = some (E.newFontMgr emptyHeap).2.next) ∧
    (Heap.live (staticInit E).heap (E.newFontMgr emptyHeap).2.next = true) ∧
    ((∀ s fc hp i, Heap.live hp i = true → Heap.live (E.pbMake s fc hp).2 i = true) →
      Heap.live (runBuilders E styles (staticInit E)).2.heap
        (E.newFontMgr emptyHeap).2.next = true) := by
  have hlive : Heap.live (staticInit E).heap (E.newFontMgr emptyHeap).2.next = true := by
    simp [staticInit, sk_make_sp, Heap.alloc, Heap.live]
  have hglob := runBuilders_globals E styles (staticInit E)
  refine ⟨hglob.1, hglob.2.1, ?_, hlive, ?_⟩
  · simp [staticInit, sk_make_sp, Heap.alloc]
  · intro hE
    exact hglob.2.2 hE _ hlive

/-- The test engine's paragraph-builder factory never destroys an existing
object. -/
theorem testEngine_pbMake_live (s : ParagraphStyle) (fc : SkSp) (hp : Heap) (i : Nat)
    (hi : Heap.live hp i = true) : Heap.live (testEngine.pbMake s fc hp).2 i = true := by
  simp [testEngine, Heap.alloc, Heap.live] at hi ⊢
  rcases eq_or_ne i hp.next with he | hne
  · subst he
    simp [Function.update_same]
  · rw [Function.update_noteq hne]
    exact hi

/-- C6 witness: after one `paragraph_builder_new` call under the test
engine, the singleton font collection is still live. -/
theorem C6_witness :
    Heap.live (runBuilders testEngine [0] (staticInit testEngine)).2.heap
      ((testEngine.newFontMgr emptyHeap).2.next) = true :=
  (C6_singleton testEngine [0]).2.2.2.2 testEngine_pbMake_live

-- MARK: C7

/-- C7 (counterexample): the text-run result of
`sk_text_blob_make_from_glyphs` is *not* a non-reference-counted value
type: the shim returns an `sk_sp<SkTextBlob>` over a freshly allocated
object with an active reference count of 1, which the `sk_sp` destructor
decrements — reference-count bookkeeping is active on the result. -/
theorem C7_counterexample :
    ((sk_text_blob_make_from_glyphs [7] [⟨1, 2⟩] 1 0 emptyHeap).1 = ⟨some 0⟩) ∧
    ((sk_text_blob_make_from_glyphs [7] [⟨1, 2⟩] 1 0 emptyHeap).2.2.rc 0 = 1) ∧
    (((sk_text_blob_make_from_glyphs [7] [⟨1, 2⟩] 1 0 emptyHeap).1.destroy
        (sk_text_blob_make_from_glyphs [7] [⟨1, 2⟩] 1 0 emptyHeap).2.2).rc 0 = 0) := by
  refine ⟨rfl, ?_, ?_⟩ <;> decide

/-- C7 (amended): the accessor shims take their handles as borrowed
references and build self-contained copies — `sk_text_blob_make_from_glyphs`
copies exactly `length` glyph ids and `length` positions out of the
caller's arrays (so the result depends only on those entries and is
independent of the arrays afterwards), no pre-existing object's reference
count changes, and `sk_typeface_get_glyphs` returns a fresh vector of
exactly `length` glyphs — but the text-blob result is handed back as a
reference-counted `sk_sp` shared handle, not as a non-reference-counted
value type. -/
theorem C7_copy_semantics (glyphs : List GlyphID) (positions : List SkPoint)
    (n : Nat) (font : Font) (h : Heap) (g2 : List GlyphID) (p2 : List SkPoint)
    (tf : Typeface) (text : List Nat)
    (hg : n ≤ glyphs.length) (hp : n ≤ positions.length) :
    ((sk_text_blob_make_from_glyphs glyphs positions n font h).2.1.glyphs.length = n) ∧
    ((sk_text_blob_make_from_glyphs glyphs positions n font h).2.1.points.length = n) ∧
    (g2.take n = glyphs.take n → p2.take n = positions.take n →
      (sk_text_blob_make_from_glyphs g2 p2 n font h).2.1 =
        (sk_text_blob_make_from_glyphs glyphs positions n font h).2.1) ∧
    (∀ i, i < h.next →
      (sk_text_blob_make_from_glyphs glyphs positions n font h).2.2.rc i = h.rc i) ∧
    (n ≤ text.length → (sk_typeface_get_glyphs tf text n).length = n) := by
  refine ⟨?_, ?_, ?_, ?_, ?_⟩
  · simp [sk_text_blob_make_from_glyphs, List.length_take, Nat.min_eq_left hg]
  · simp [sk_text_blob_make_from_glyphs, List.length_take, Nat.min_eq_left hp]
  · intro hG hP
    simp [sk_text_blob_make_from_glyphs, hG, hP]
  · intro i hi
    simp only [sk_text_blob_make_from_glyphs, Heap.alloc]
    exact Function.update_noteq (Nat.ne_of_lt hi) 1 h.rc
  · intro ht
    simp [sk_typeface_get_glyphs, List.length_take, Nat.min_eq_left ht]

/-- C7 witness: the copied run depends only on the first `length` entries
of the caller's arrays. -/
theorem C7_witness :
    (sk_text_blob_make_from_glyphs [5] [⟨0, 0⟩] 1 3 emptyHeap).2.1 =
      (sk_text_blob_make_from_glyphs [5, 6] [⟨0, 0⟩, ⟨1, 1⟩] 1 3 emptyHeap).2.1 :=
  (C7_copy_semantics [5, 6] [⟨0, 0⟩, ⟨1, 1⟩] 1 3 emptyHeap [5] [⟨0, 0⟩]
      testTypeface [] (by decide) (by decide)).2.2.1 (by decide) (by decide)

-- MARK: C8

/-- Each borrow-only shim call leaves both the ownership state (the heap)
and the paragraph state exactly as they were. -/
theorem applyBorrow_id (PE : ParagraphEngine) (h : Heap) (st : PState) (c : BorrowCall) :
    applyBorrow PE h st c = (h, st) := by
  cases c <;> rfl

/-- C8: any number of borrow-only calls on an owned `Paragraph` handle
(`paragraph_get_line_count`, `paragraph_get_glyph_position_at_coordinate`,
`paragraph_paint`, ...) changes neither the handle's ownership state (no
reference count in the heap moves) nor the paragraph, so a dependent
`paragraph_layout`-then-`paragraph_paint` sequence behaves identically
regardless of how many borrowed-reference calls preceded it. -/
theorem C8_borrow_inert (PE : ParagraphEngine) (h : Heap) (st : PState)
    (calls : List BorrowCall) (width : Scalar) (canvas : Canvas) (x y : Scalar) :
    (runBorrows PE h st calls = (h, st)) ∧
    (paragraph_paint PE (paragraph_layout PE (runBorrows PE h st calls).2 width) canvas x y =
      paragraph_paint PE (paragraph_layout PE st width) canvas x y) ∧
    ((runBorrows PE h st calls).1.rc = h.rc) := by
  have hrun : runBorrows PE h st calls = (h, st) := by
    induction calls with
    | nil => rfl
    | cons c rest ih =>
        simp only [runBorrows, applyBorrow_id]
        exact ih
  exact ⟨hrun, by rw [hrun], by rw [hrun]⟩

-- MARK: C9

theorem cnt_append {α : Type} [DecidableEq α] (l l2 : List α) (a : α) :
    cnt (l ++ l2) a = cnt l a + cnt l2 a := by
  induction l with
  | nil => simp [cnt]
  | cons b t ih =>
      show (if b = a then 1 else 0) + cnt (t ++ l2) a =
        ((if b = a then 1 else 0) + cnt t a) + cnt l2 a
      rw [ih]
      omega

/-- Updating slot `j` removes the old element from the tally and adds the
new one (additive form, valid for in-range `j`). -/
theorem cnt_set {α : Type} [DecidableEq α] (l : List α) (j : Nat) (v a d : α)
    (hj : j < l.length) :
    cnt (l.set j v) a + (if l.getD j d = a then 1 else 0) =
      cnt l a + (if v = a then 1 else 0) := by
  induction l generalizing j with
  | nil => simp at hj
  | cons b t ih =>
      cases j with
      | zero =>
          show cnt (v :: t) a + (if b = a then 1 else 0) =
            cnt (b :: t) a + (if v = a then 1 else 0)
          simp only [cnt]
          omega
      | succ j =>
          show cnt (b :: t.set j v) a + (if t.getD j d = a then 1 else 0) =
            cnt (b :: t) a + (if v = a then 1 else 0)
          simp only [cnt]
          have := ih j (Nat.lt_of_succ_lt_succ hj)
          omega

theorem getD_set_self (l : List (Option Nat)) (j : Nat) (v d : Option Nat)
    (hj : j < l.length) : (l.set j v).getD j d = v := by
  induction l generalizing j with
  | nil => simp at hj
  | cons b t ih =>
      cases j with
      | zero => rfl
      | succ j => exact ih j (Nat.lt_of_succ_lt_succ hj)

theorem getD_append_left (l l2 : List (Option Nat)) (j : Nat) (d : Option Nat)
    (hj : j < l.length) : (l ++ l2).getD j d = l.getD j d := by
  induction l generalizing j with
  | nil => simp at hj
  | cons b t ih =>
      cases j with
      | zero => rfl
      | succ j => exact ih j (Nat.lt_of_succ_lt_succ hj)

/-- Every single `CFRef` operation preserves the bookkeeping balance:
acquired references are always accounted for by releases, live wrapper
slots, or references handed out by `Release()`. -/
theorem applyOp_balanced (w : CFWorld) (op : CFOp) (i : Nat) (hw : w.balanced i) :
    (w.applyOp op).balanced i := by
  unfold CFWorld.balanced at hw
  have hz : (if (none : Option Nat) = some i then 1 else 0) = 0 := by simp
  cases op with
  | mkEmpty =>
      unfold CFWorld.applyOp CFWorld.balanced
      dsimp only
      rw [cnt_append]
      have h1 : cnt [(none : Option Nat)] (some i) = 0 := by simp [cnt]
      omega
  | adopt k =>
      unfold CFWorld.applyOp CFWorld.balanced
      dsimp only
      rw [cnt_append, cnt_append]
      have h1 : cnt [k] i = if k = i then 1 else 0 := by simp [cnt]
      have h2 : cnt [(some k : Option Nat)] (some i) = if k = i then 1 else 0 := by
        simp [cnt]
      omega
  | copyFrom j =>
      unfold CFWorld.applyOp
      by_cases hj : j < w.cells.length
      · simp only [hj, if_true]
        cases hc : w.cells.getD j none with
        | none =>
            unfold CFWorld.balanced
            dsimp only
            rw [cnt_append]
            have h1 : cnt [(none : Option Nat)] (some i) = 0 := by simp [cnt]
            omega
        | some k =>
            unfold CFWorld.balanced
            dsimp only
            rw [cnt_append, cnt_append]
            have h1 : cnt [k] i = if k = i then 1 else 0 := by simp [cnt]
            have h2 : cnt [(some k : Option Nat)] (some i) = if k = i then 1 else 0 := by
              simp [cnt]
            omega
      · simp only [hj, if_false]
        exact hw
  | moveFrom j =>
      unfold CFWorld.applyOp
      by_cases hj : j < w.cells.length
      · simp only [hj, if_true]
        unfold CFWorld.balanced
        dsimp only
        rw [cnt_append]
        have hset := cnt_set w.cells j none (some i) none hj
        have hsing : cnt [w.cells.getD j none] (some i) =
            if w.cells.getD j none = some i then 1 else 0 := by
          simp [cnt]
        omega
      · simp only [hj, if_false]
        exact hw
  | moveAssign dst src =>
      unfold CFWorld.applyOp
      dsimp only
      by_cases hj : dst < w.cells.length ∧ src < w.cells.length
      · rw [if_pos hj]
        obtain ⟨hd, hs⟩ := hj
        have hs1 := cnt_set w.cells src none (some i) none hs
        have hd1 : dst < (w.cells.set src none).length := by
          rw [List.length_set]
          exact hd
        cases hc : (w.cells.set src none).getD dst none with
        | none =>
            unfold CFWorld.balanced
            dsimp only
            have h2 := cnt_set (w.cells.set src none) dst (w.cells.getD src none)
              (some i) none hd1
            rw [hc] at h2
            omega
        | some k =>
            unfold CFWorld.balanced
            dsimp only
            rw [cnt_append]
            have h2 := cnt_set (w.cells.set src none) dst (w.cells.getD src none)
              (some i) none hd1
            rw [hc] at h2
            have h3 : cnt [k] i = if k = i then 1 else 0 := by simp [cnt]
            have h4 : (if (some k : Option Nat) = some i then 1 else 0) =
                if k = i then 1 else 0 := by simp
            omega
      · rw [if_neg hj]
        exact hw
  | reset j v =>
      unfold CFWorld.applyOp
      by_cases hj : j < w.cells.length
      · simp only [hj, if_true]
        have hset0 := cnt_set w.cells j none (some i) none hj
        cases hc : w.cells.getD j none with
        | none =>
            cases v with
            | none =>
                unfold CFWorld.balanced
                dsimp only
                rw [hc] at hset0
                omega
            | some m =>
                unfold CFWorld.balanced
                dsimp only
                rw [cnt_append]
                have hsetm := cnt_set w.cells j (some m) (some i) none hj
                rw [hc] at hsetm
                have h1 : cnt [m] i = if m = i then 1 else 0 := by simp [cnt]
                have h2 : (if (some m : Option Nat) = some i then 1 else 0) =
                    if m = i then 1 else 0 := by simp
                omega
        | some k =>
            cases v with
            | none =>
                unfold CFWorld.balanced
                dsimp only
                rw [cnt_append]
                rw [hc] at hset0
                have h3 : cnt [k] i = if k = i then 1 else 0 := by simp [cnt]
                have h4 : (if (some k : Option Nat) = some i then 1 else 0) =
                    if k = i then 1 else 0 := by simp
                omega
            | some m =>
                unfold CFWorld.balanced
                dsimp only
                rw [cnt_append, cnt_append]
                have hsetm := cnt_set w.cells j (some m) (some i) none hj
                rw [hc] at hsetm
                have h1 : cnt [m] i = if m = i then 1 else 0 := by simp [cnt]
                have h2 : (if (some m : Option Nat) = some i then 1 else 0) =
                    if m = i then 1 else 0 := by simp
                have h3 : cnt [k] i = if k = i then 1 else 0 := by simp [cnt]
                have h4 : (if (some k : Option Nat) = some i then 1 else 0) =
                    if k = i then 1 else 0 := by simp
                omega
      · simp only [hj, if_false]
        exact hw
  | releaseCall j =>
      unfold CFWorld.applyOp
      by_cases hj : j < w.cells.length
      · simp only [hj, if_true]
        have hset0 := cnt_set w.cells j none (some i) none hj
        cases hc : w.cells.getD j none with
        | none =>
            unfold CFWorld.balanced
            dsimp only
            rw [hc] at hset0
            omega
        | some k =>
            unfold CFWorld.balanced
            dsimp only
            rw [cnt_append]
            rw [hc] at hset0
            have h3 : cnt [k] i = if k = i then 1 else 0 := by simp [cnt]
            have h4 : (if (some k : Option Nat) = some i then 1 else 0) =
                if k = i then 1 else 0 := by simp
            omega
      · simp only [hj, if_false]
        exact hw
  | destructor j =>
      unfold CFWorld.applyOp
      by_cases hj : j < w.cells.length
      · simp only [hj, if_true]
        have hset0 := cnt_set w.cells j none (some i) none hj
        cases hc : w.cells.getD j none with
        | none => exact hw
        | some k =>
            unfold CFWorld.balanced
            dsimp only
            rw [cnt_append]
            rw [hc] at hset0
            have h3 : cnt [k] i = if k = i then 1 else 0 := by simp [cnt]
            have h4 : (if (some k : Option Nat) = some i then 1 else 0) =
                if k = i then 1 else 0 := by simp
            omega
      · simp only [hj, if_false]
        exact hw

/-- Balance is preserved along any operation sequence. -/
theorem run_balanced (ops : List CFOp) (w : CFWorld) (i : Nat) (hw : w.balanced i) :
    (w.run ops).balanced i := by
  induction ops generalizing w with
  | nil => exact hw
  | cons op rest ih => exact ih _ (applyOp_balanced w op i hw)

/-- C9: the `CFRef<T>` wrapper never double-releases: along every sequence
of `CFRef` operations from the initial state, the number of `CFRelease`
calls issued for an instance never exceeds the number of references
acquired for it (bookkeeping stays balanced); moreover a moved-from
wrapper and a `Release()`d wrapper hold nullptr afterwards, and the
destructor and `Reset` issue no `CFRelease` when the held instance is
null. -/
theorem C9_cfref_safety (ops : List CFOp) (i : Nat) :
    ((CFWorld.init.run ops).balanced i) ∧
    (cnt (CFWorld.init.run ops).released i ≤ cnt (CFWorld.init.run ops).acquired i) ∧
    (∀ (w : CFWorld) (j : Nat), j < w.cells.length →
      ((w.applyOp (.moveFrom j)).cells.getD j none = none) ∧
      ((w.applyOp (.releaseCall j)).cells.getD j none = none) ∧
      (w.cells.getD j none = none → (w.applyOp (.destructor j)).released = w.released) ∧
      (w.cells.getD j none = none → (w.applyOp (.reset j none)).released = w.released)) := by
  have hinit : CFWorld.init.balanced i := by
    simp [CFWorld.init, CFWorld.balanced, cnt]
  have hbal := run_balanced ops CFWorld.init i hinit
  refine ⟨hbal, ?_, ?_⟩
  · unfold CFWorld.balanced at hbal
    omega
  · intro w j hj
    refine ⟨?_, ?_, ?_, ?_⟩
    · unfold CFWorld.applyOp
      dsimp only
      rw [if_pos hj]
      show ((w.cells.set j none) ++ [w.cells.getD j none]).getD j none = none
      rw [getD_append_left]
      · exact getD_set_self w.cells j none none hj
      · rw [List.length_set]
        exact hj
    · unfold CFWorld.applyOp
      dsimp only
      rw [if_pos hj]
      cases hc : w.cells.getD j none with
      | none => exact getD_set_self w.cells j none none hj
      | some k => exact getD_set_self w.cells j none none hj
    · intro hc
      unfold CFWorld.applyOp
      dsimp only
      rw [if_pos hj, hc]
    · intro hc
      unfold CFWorld.applyOp
      dsimp only
      rw [if_pos hj, hc]

/-- C9 witness: moving out of a wrapper that adopted an instance leaves
the source wrapper holding nullptr. -/
theorem C9_witness :
    ((CFWorld.mk [some 5] [5] [] []).applyOp (.moveFrom 0)).cells.getD 0 none = none :=
  ((C9_cfref_safety [] 0).2.2 (CFWorld.mk [some 5] [5] [] []) 0 (by decide)).1

-- MARK: C10

/-- Registering along a weight list is the same as keeping, in order, one
`(typeface, family)` pair per weight whose typeface creation succeeded. -/
theorem flatMap_register (mk : Nat → Option Nat) (ws : List Nat) :
    ws.flatMap (register_weighted_font mk) =
      ws.filterMap (fun w => (mk w).map (fun tf => (tf, kSFProDisplayName))) := by
  induction ws with
  | nil => rfl
  | cons w rest ih =>
      cases hm : mk w <;> simp [register_weighted_font, hm, ih]

/-- C10: `RegisterSystemFonts` attempts typeface creation for exactly the
ten weights 0, 100, 200, 300, 400, 500, 600, 700, 780, 810, in that
order; every performed registration uses the fixed family name
`kSFProDisplayName` (= "CupertinoSystemDisplay"); and a weight whose
typeface creation returns null contributes no registration and no
error. -/
theorem C10_register_system_fonts :
    ((((List.range 8).map (fun i => i * 100)) ++ [780, 810] : List Nat)
        = [0, 100, 200, 300, 400, 500, 600, 700, 780, 810]) ∧
    (∀ mk : Nat → Option Nat,
      (RegisterSystemFonts mk =
        ([0, 100, 200, 300, 400, 500, 600, 700, 780, 810] : List Nat).filterMap
          (fun w => (mk w).map (fun tf => (tf, kSFProDisplayName)))) ∧
      (∀ e, e ∈ RegisterSystemFonts mk → e.2 = kSFProDisplayName) ∧
      (∀ w, mk w = none → register_weighted_font mk w = [])) := by
  have hws : (((List.range 8).map (fun i => i * 100)) ++ [780, 810] : List Nat)
      = [0, 100, 200, 300, 400, 500, 600, 700, 780, 810] := by decide
  refine ⟨hws, fun mk => ?_⟩
  have hform : RegisterSystemFonts mk =
      ([0, 100, 200, 300, 400, 500, 600, 700, 780, 810] : List Nat).filterMap
        (fun w => (mk w).map (fun tf => (tf, kSFProDisplayName))) := by
    unfold RegisterSystemFonts
    rw [flatMap_register, hws]
  refine ⟨hform, ?_, ?_⟩
  · intro e he
    rw [hform] at he
    simp only [List.mem_filterMap, Option.map_eq_some'] at he
    obtain ⟨w, _, tf, _, htf⟩ := he
    rw [← htf]
  · intro w hm
    simp [register_weighted_font, hm]

/-- C10 witness: under a concrete typeface factory that succeeds only at
weight 400, the single registration carries the fixed family name, and a
failing weight (0) registers nothing. -/
theorem C10_witness :
    (((1 : Nat), kSFProDisplayName).2 = kSFProDisplayName) ∧
      (register_weighted_font testMkTypeface 0 = []) :=
  ⟨(C10_register_system_fonts.2 testMkTypeface).2.1 (1, kSFProDisplayName) (by decide),
   (C10_register_system_fonts.2 testMkTypeface).2.2 0 (by decide)⟩
